import Mathlib

/-!
Verification of the DQN navigation trainer (r2.py): a shallow embedding of
the replay buffer, the navigation environment's physics, the dueling head
combination and the per-step learning update, with theorems settling the
frozen claims about them.

Floating-point arithmetic of the source is modelled over the reals.
Random draws (random.random, random.randint, np.random.choice) are modelled
as explicit arguments: a function or list supplying the drawn values.
-/

/-! ## Generic helpers -/

/-- Maximum of a list of reals, as numpy's max / Python's max compute it on a
nonempty array (we return 0 on the empty list, which the source never does). -/
def listMax : List ℝ → ℝ
  | [] => 0
  | x :: xs => xs.foldl max x

/-! ## Replay buffer (class ReplayBuffer, r2.py lines 121-168)

`collections.deque(maxlen=capacity)` is modelled as a list together with the
append operation that drops the oldest entries once the length exceeds the
capacity. The constants set in `__init__` are bound here as definitions;
`beta` is the only one the class ever reassigns, so it is a field. -/

/-- One transition tuple (state, action, reward, next_state, done). -/
structure Transition (σ : Type) where
  state : σ
  action : ℕ
  reward : ℝ
  next_state : σ
  done : Bool

instance [Inhabited σ] : Inhabited (Transition σ) :=
  ⟨⟨default, 0, 0, default, false⟩⟩

/-- Priority exponent alpha = 0.6 (r2.py line 126). -/
def bufAlpha : ℝ := 0.6

/-- Importance-sampling increment beta_increment = 0.001 (r2.py line 128). -/
def bufBetaIncrement : ℝ := 0.001

/-- Small constant epsilon = 1e-6 preventing zero priorities (r2.py line 129). -/
def bufEpsilon : ℝ := 1e-6

/-- Append to a bounded deque: once the length exceeds `cap`, the oldest
entries (at the front) are dropped, as `collections.deque(maxlen=cap)` does. -/
def dequeAppend (cap : ℕ) (l : List α) (x : α) : List α :=
  let l2 := l ++ [x]
  l2.drop (l2.length - cap)

/-- The replay buffer state: the transition deque, the parallel priority
deque, and the mutable importance-sampling exponent beta (initially 0.4). -/
structure ReplayBuffer (σ : Type) where
  capacity : ℕ
  buffer : List (Transition σ)
  priorities : List ℝ
  beta : ℝ

/-- A fresh `ReplayBuffer(capacity)` (r2.py lines 123-129; caller at line 407
uses the default capacity 20000). -/
def ReplayBuffer.new (σ : Type) (capacity : ℕ := 20000) : ReplayBuffer σ :=
  ⟨capacity, [], [], 0.4⟩

/-- `ReplayBuffer.push` (r2.py lines 131-139): append the transition with the
maximal stored priority (1.0 on an empty buffer); if the transition is
non-terminal, also append the hindsight copy with reward 1.0 and done = True. -/
def ReplayBuffer.push (b : ReplayBuffer σ) (t : Transition σ) : ReplayBuffer σ :=
  let maxPriority : ℝ := if b.priorities.isEmpty then 1.0 else listMax b.priorities
  let buf1 := dequeAppend b.capacity b.buffer t
  let pri1 := dequeAppend b.capacity b.priorities maxPriority
  if t.done then
    { b with buffer := buf1, priorities := pri1 }
  else
    { b with
      buffer := dequeAppend b.capacity buf1
        { state := t.state, action := t.action, reward := 1.0,
          next_state := t.next_state, done := true }
      priorities := dequeAppend b.capacity pri1 maxPriority }

/-- Sampling probability of index `i`: priority_i ^ alpha, normalized
(r2.py lines 144-145). -/
noncomputable def ReplayBuffer.prob (b : ReplayBuffer σ) (i : ℕ) : ℝ :=
  (b.priorities.getD i 0) ^ bufAlpha / ((b.priorities.map (fun p => p ^ bufAlpha)).sum)

/-- Unnormalized importance weight of index `i` at exponent `beta`
(r2.py line 151). -/
noncomputable def ReplayBuffer.rawWeight (b : ReplayBuffer σ) (beta : ℝ) (i : ℕ) : ℝ :=
  ((b.buffer.length : ℝ) * b.prob i) ^ (-beta)

/-- What `ReplayBuffer.sample` returns, plus the post-call buffer state. -/
structure SampleResult (σ : Type) where
  samples : List (Transition σ)
  indices : List ℕ
  weights : List ℝ
  post : ReplayBuffer σ

/-- `ReplayBuffer.sample` (r2.py lines 141-161). The indices drawn by
`np.random.choice` are an argument. Beta is incremented by 0.001 and capped at
1.0 first; the importance weights `(len(buffer) * probs[i]) ** (-beta)` are
then normalized by their own maximum. -/
noncomputable def ReplayBuffer.sample [Inhabited σ] (b : ReplayBuffer σ)
    (indices : List ℕ) : SampleResult σ :=
  let beta2 := min 1.0 (b.beta + bufBetaIncrement)
  let samples := indices.map (fun i => b.buffer.getD i default)
  let raw := indices.map (fun i => b.rawWeight beta2 i)
  let weights := raw.map (fun w => w / listMax raw)
  ⟨samples, indices, weights, { b with beta := beta2 }⟩

/-- `ReplayBuffer.update_priorities` (r2.py lines 163-165): set the priority
at each index to |td_error| + epsilon. -/
def ReplayBuffer.update_priorities (b : ReplayBuffer σ)
    (indices : List ℕ) (td_errors : List ℝ) : ReplayBuffer σ :=
  { b with
    priorities := (indices.zip td_errors).foldl
      (fun ps p => ps.set p.1 (|p.2| + bufEpsilon)) b.priorities }

/-- A dummy non-terminal transition used for concrete buffer instances. -/
def dummyTrans : Transition Unit := ⟨(), 0, 0, (), false⟩

/-- A replay buffer at its default capacity 20000 that is completely full. -/
def fullBuffer : ReplayBuffer Unit :=
  { capacity := 20000
    buffer := List.replicate 20000 dummyTrans
    priorities := List.replicate 20000 1
    beta := 0.4 }

/-- The replay-buffer invariant: positive priorities, the priority deque in
lockstep with the transition deque, both within capacity. -/
def bufInv (b : ReplayBuffer σ) : Prop :=
  b.priorities.length = b.buffer.length ∧
  b.buffer.length ≤ b.capacity ∧
  ∀ p ∈ b.priorities, 0 < p

/-- A small concrete two-entry buffer for witnesses. -/
def witBuf : ReplayBuffer Unit :=
  { capacity := 20000
    buffer := [dummyTrans, dummyTrans]
    priorities := [1, 1]
    beta := 0.4 }

/-! ## Dueling head combination (class DQNReasoner.forward, r2.py lines 105-110)

The attention stack producing the representation is a pluggable component; the
claim concerns the final combination of the value stream and the advantage
stream, which we embed over the two streams' outputs for a batch.

The tensors reaching the heads are three-dimensional: the positional-encoding
add (r2.py line 82) broadcasts the [batch, 256] embedding against the
[1, 1, 256] parameter to [1, batch, 256], so the value stream outputs shape
[1, batch, 1] and the advantage stream [1, batch, A] (the source's own
comment at r2.py line 451 records the [1, 64, 8] q-value shape, squeezed away
at line 456). Hence `dim=1` of `advantage.mean(dim=1, keepdim=True)` is the
sample axis: the mean is taken per action across the batch. Dropping the
constant leading axis of size 1, the batch is indexed by `b : Fin B` and the
actions by `a : Fin A`. -/

/-- The dueling combination `q_values = value + (advantage -
advantage.mean(dim=1, keepdim=True))` (r2.py line 110) on the [1, B, A]-shaped
activations: `mean(dim=1)` averages over the `B` samples for each action. -/
noncomputable def qValuesCombine (B A : ℕ) (value : Fin B → ℝ) (advantage : Fin B → Fin A → ℝ) :
    Fin B → Fin A → ℝ :=
  fun b a => value b + (advantage b a - (∑ i, advantage i a) / (B : ℝ))

/-! ## Navigation environment (class NavigationEnv, r2.py lines 170-358) -/

namespace NavigationEnv

/-- World width (r2.py line 173). -/
def width : ℝ := 1024

/-- World height (r2.py line 174). -/
def height : ℝ := 768

/-- Agent radius (r2.py line 177). -/
def agent_radius : ℝ := 12

/-- Target radius (r2.py line 178). -/
def target_radius : ℝ := 15

/-- Agent speed (r2.py line 179). -/
def speed : ℝ := 4

/-- Target speed (r2.py line 182). -/
def target_speed : ℝ := 2

/-- One obstacle dict: position, radius, movement heading, scalar speed. -/
structure Obstacle where
  pos : ℝ × ℝ
  radius : ℝ
  angle : ℝ
  speed : ℝ

/-- The environment state: agent position, target position and heading, and
the obstacle list. -/
structure NavState where
  agentPos : ℝ × ℝ
  targetPos : ℝ × ℝ
  targetAngle : ℝ
  obstacles : List Obstacle

/-- What one `step` call returns: the new state plus (observationally) the
reward and the termination flag. -/
structure StepResult where
  state : NavState
  reward : ℝ
  isDone : Prop

/-- Python's `math.atan2 y x`, embedded as the argument of the complex number
x + y i (same convention: range (-pi, pi], `atan2 0 0 = 0`). -/
noncomputable def atan2 (y x : ℝ) : ℝ := Complex.arg ⟨x, y⟩

/-- The state right after `NavigationEnv.__init__` (r2.py lines 172-191); the
headings drawn by `random.random() * 2 * math.pi` are arguments. -/
def envInit (aT a1 a2 a3 a4 : ℝ) : NavState :=
  { agentPos := (400, 300)
    targetPos := (600, 400)
    targetAngle := aT
    obstacles := [
      ⟨(300, 400), 50, a1, 1.5⟩,
      ⟨(700, 300), 40, a2, 1.2⟩,
      ⟨(500, 600), 45, a3, 1.8⟩,
      ⟨(200, 200), 35, a4, 1.3⟩] }

open Classical in
/-- `NavigationEnv._check_collision` (r2.py lines 328-334) generalized over the
tested position: the first obstacle whose circle overlaps the agent circle at
`p`, if any. -/
noncomputable def checkCollision (p : ℝ × ℝ) : List Obstacle → Option Obstacle
  | [] => none
  | o :: rest =>
    if Real.sqrt ((p.1 - o.pos.1) ^ 2 + (p.2 - o.pos.2) ^ 2) < agent_radius + o.radius then
      some o
    else checkCollision p rest

open Classical in
/-- The `while True` rejection-sampling loop of `reset` (r2.py lines 200-204)
run with `fuel` remaining attempts against the draw stream `draws`: the loop
breaks at the first draw that collides with no obstacle. The source loop has
no fuel parameter: it retries forever, so `none` means the loop is still
running after `fuel` attempts. -/
noncomputable def placeAgentLoop (obs : List Obstacle) (draws : ℕ → ℝ × ℝ) :
    ℕ → Option (ℝ × ℝ)
  | 0 => none
  | fuel + 1 =>
    if (checkCollision (draws 0) obs).isSome then
      placeAgentLoop obs (fun k => draws (k + 1)) fuel
    else some (draws 0)

/-- `NavigationEnv.reset` (r2.py lines 198-217): rejection-sample the agent
position against the current (pre-reset) obstacle positions, then redraw the
target position and heading and every obstacle's position and heading. -/
noncomputable def reset (s : NavState) (agentDraws : ℕ → ℝ × ℝ) (fuel : ℕ)
    (targetDraw : ℝ × ℝ) (targetAngleDraw : ℝ)
    (obsDraws : List ((ℝ × ℝ) × ℝ)) : Option NavState :=
  match placeAgentLoop s.obstacles agentDraws fuel with
  | none => none
  | some p => some
      { agentPos := p
        targetPos := targetDraw
        targetAngle := targetAngleDraw
        obstacles := (s.obstacles.zip obsDraws).map
          (fun od => { od.1 with pos := od.2.1, angle := od.2.2 }) }

open Classical in
/-- Wall reflection of the target heading (r2.py lines 228-231): angle
becomes pi - angle past a vertical wall, then -angle past a horizontal wall. -/
noncomputable def targetWallAngle (p : ℝ × ℝ) (ang : ℝ) : ℝ :=
  let a1 := if p.1 < target_radius ∨ p.1 > width - target_radius then Real.pi - ang else ang
  if p.2 < target_radius ∨ p.2 > height - target_radius then -a1 else a1

open Classical in
/-- The target-vs-obstacle bounce loop (r2.py lines 234-247). The fold state is
(live target position, value of `old_target_pos`, target heading). On a bounce
the source rebinds `self.target_pos = old_target_pos` (the same list object,
not a copy) and then mutates it in place, so from that point on the saved
old position is the live position: the fold therefore sets both components
to the bounced position. -/
noncomputable def targetObstacleLoop (obs : List Obstacle)
    (st : (ℝ × ℝ) × (ℝ × ℝ) × ℝ) : (ℝ × ℝ) × (ℝ × ℝ) × ℝ :=
  obs.foldl
    (fun st o =>
      if Real.sqrt ((st.1.1 - o.pos.1) ^ 2 + (st.1.2 - o.pos.2) ^ 2) <
          target_radius + o.radius then
        let bounce_angle := atan2 (st.1.2 - o.pos.2) (st.1.1 - o.pos.1)
        let p2 := (st.2.1.1 + Real.cos bounce_angle * target_speed,
                   st.2.1.2 + Real.sin bounce_angle * target_speed)
        (p2, p2, bounce_angle)
      else st)
    st

open Classical in
/-- One obstacle's movement, wall reflection and clamping
(r2.py lines 250-263). -/
noncomputable def moveObstacle (o : Obstacle) : Obstacle :=
  let p1 := (o.pos.1 + Real.cos o.angle * o.speed, o.pos.2 + Real.sin o.angle * o.speed)
  let a1 := if p1.1 < o.radius ∨ p1.1 > width - o.radius then Real.pi - o.angle else o.angle
  let a2 := if p1.2 < o.radius ∨ p1.2 > height - o.radius then -a1 else a1
  { o with
    pos := (max o.radius (min (width - o.radius) p1.1),
            max o.radius (min (height - o.radius) p1.2))
    angle := a2 }

/-- The first phase of `step` before the agent moves (r2.py lines 220-267):
target advance, target wall reflection, target-obstacle bounces, obstacle
moves, and target clamping. The agent is untouched. -/
noncomputable def stepTargetPhase (s : NavState) : NavState :=
  let old_target_pos := s.targetPos
  let tMoved := (s.targetPos.1 + Real.cos s.targetAngle * target_speed,
                 s.targetPos.2 + Real.sin s.targetAngle * target_speed)
  let tAng := targetWallAngle tMoved s.targetAngle
  let tob := targetObstacleLoop s.obstacles (tMoved, old_target_pos, tAng)
  let obstacles2 := s.obstacles.map moveObstacle
  { agentPos := s.agentPos
    targetPos := (max target_radius (min (width - target_radius) tob.1.1),
                  max target_radius (min (height - target_radius) tob.1.2))
    targetAngle := tob.2.2
    obstacles := obstacles2 }

open Classical in
/-- The agent displacement resolved from the action code, with the 0.707
diagonal scaling (r2.py lines 269-286). -/
noncomputable def agentDelta (action : ℕ) : ℝ × ℝ :=
  let dy : ℝ := 0
  let dy := if action ∈ [0, 4, 5] then dy - speed else dy
  let dy := if action ∈ [2, 6, 7] then dy + speed else dy
  let dx : ℝ := 0
  let dx := if action ∈ [1, 5, 7] then dx + speed else dx
  let dx := if action ∈ [3, 4, 6] then dx - speed else dx
  if dx ≠ 0 ∧ dy ≠ 0 then (dx * 0.707, dy * 0.707) else (dx, dy)

/-- The agent position after the action move and the wall clamp
(r2.py lines 288-293). -/
noncomputable def agentMovedPos (s : NavState) (action : ℕ) : ℝ × ℝ :=
  let d := agentDelta action
  (max 0 (min width (s.agentPos.1 + d.1)), max 0 (min height (s.agentPos.2 + d.2)))

/-- The post-move agent-to-target distance `dist` of `step`
(r2.py lines 296-297): measured from the clamped moved agent to the target
after the full target/obstacle phase, before any agent bounce. -/
noncomputable def agentDistAfterMove (s : NavState) (action : ℕ) : ℝ :=
  Real.sqrt (((agentMovedPos s action).1 - (stepTargetPhase s).targetPos.1) ^ 2 +
    ((agentMovedPos s action).2 - (stepTargetPhase s).targetPos.2) ^ 2)

open Classical in
/-- `NavigationEnv.step` (r2.py lines 219-326). -/
noncomputable def step (s : NavState) (action : ℕ) : StepResult :=
  let s1 := stepTargetPhase s
  let old_pos := s.agentPos
  let newPos := agentMovedPos s action
  let dist := agentDistAfterMove s action
  let old_dist := Real.sqrt ((old_pos.1 - s1.targetPos.1) ^ 2 +
    (old_pos.2 - s1.targetPos.2) ^ 2)
  let collision := checkCollision newPos s1.obstacles
  let agentReward : (ℝ × ℝ) × ℝ :=
    match collision with
    | some o =>
      let bounce_angle := atan2 (newPos.2 - o.pos.2) (newPos.1 - o.pos.1)
      ((old_pos.1 + Real.cos bounce_angle * speed,
        old_pos.2 + Real.sin bounce_angle * speed), -2)
    | none => (newPos, (old_dist - dist) * 0.5 - 0.1)
  let done := dist < agent_radius + target_radius
  ⟨{ s1 with agentPos := agentReward.1 }, if done then 200 else agentReward.2, done⟩

/-- Iterated stepping with a fixed action, discarding rewards. -/
noncomputable def stepIter (s : NavState) (action : ℕ) : ℕ → NavState
  | 0 => s
  | n + 1 => (step (stepIter s action n) action).state

/-- The agent lies inside the world rectangle. -/
def agentInBounds (s : NavState) : Prop :=
  0 ≤ s.agentPos.1 ∧ s.agentPos.1 ≤ width ∧ 0 ≤ s.agentPos.2 ∧ s.agentPos.2 ≤ height

end NavigationEnv

/-! ## Orchestrator: the per-step learning update (r2.py lines 440-467) -/

/-- Discount factor gamma = 0.99 (r2.py line 392). -/
def gammaConst : ℝ := 0.99

/-- Batch size 64 (r2.py line 391). -/
def batch_size : ℕ := 64

/-- Action count 8 (r2.py line 390). -/
def action_size : ℕ := 8

/-- The mutable state the training-step block can reach: the replay buffer,
the online estimator's parameters and the target estimator's parameters. -/
structure TrainState (σ θ : Type) where
  buffer : ReplayBuffer σ
  onlineParams : θ
  targetParams : θ

/-- The training-step block of the loop body (r2.py lines 442-467), with the
network evaluation abstracted as `net params state action`. When the buffer
holds at least batch_size entries it samples a batch, evaluates the online
network at the taken actions and the target network maximized over the 8
actions at the next states, and forms
`targets = rewards + gamma * next_q_values * (1 - dones)`; the block ends
there (r2.py line 467), producing the targets and nothing else. -/
noncomputable def trainingUpdate [Inhabited σ] (net : θ → σ → ℕ → ℝ)
    (ts : TrainState σ θ) (sampleIdx : List ℕ) :
    TrainState σ θ × Option (List ℝ) :=
  if batch_size ≤ ts.buffer.buffer.length then
    let res := ts.buffer.sample sampleIdx
    let current_q_values := res.samples.map (fun t => net ts.onlineParams t.state t.action)
    let next_q_values := res.samples.map (fun t =>
      listMax ((List.range action_size).map (fun a => net ts.targetParams t.next_state a)))
    let target_q_values := (res.samples.zip next_q_values).map (fun p =>
      p.1.reward + gammaConst * p.2 * (1 - if p.1.done then (1 : ℝ) else 0))
    ({ ts with buffer := res.post }, some target_q_values)
  else (ts, none)

/-! ## Concrete states for the environment claims -/

namespace NavigationEnv

/-- The environment state used in the C5 witness: the agent one step left of
the target, everything else far away. -/
def c5State : NavState :=
  { agentPos := (500, 300)
    targetPos := (510, 300)
    targetAngle := 0
    obstacles := [
      ⟨(300, 400), 50, 0, 1.5⟩,
      ⟨(700, 300), 40, 0, 1.2⟩,
      ⟨(500, 600), 45, 0, 1.8⟩,
      ⟨(200, 200), 35, 0, 1.3⟩] }

/-- The reachable trajectory refuting the in-bounds claim: after `n` steps of
action 3 (left) from the reset state below, the agent sits at
max(0, 50 - 4n) with obstacle 3 descending onto the pinned agent. -/
noncomputable def traceState (n : ℕ) : NavState :=
  { agentPos := (max 0 (50 - 4 * (n : ℝ)), 100)
    targetPos := (500 + 2 * (n : ℝ), 600)
    targetAngle := 0
    obstacles := [
      ⟨(800 + 1.5 * (n : ℝ), 300), 50, 0, 1.5⟩,
      ⟨(800 + 1.2 * (n : ℝ), 400), 40, 0, 1.2⟩,
      ⟨((50 : ℝ), 163 - 1.8 * (n : ℝ)), 45, 3 * Real.pi / 2, 1.8⟩,
      ⟨(800 + 1.3 * (n : ℝ), 200), 35, 0, 1.3⟩] }

/-- The agent-placement draw stream of the refuting reset: the first draw
(50, 100) is already accepted. -/
def c2AgentDraws : ℕ → ℝ × ℝ := fun _ => (50, 100)

/-- The obstacle position/heading draws of the refuting reset. All values are
inside the ranges `random.randint(50, width-50)` x `random.randint(50,
height-50)` and `[0, 2 pi)` that the source draws from. -/
noncomputable def c2ObsDraws : List ((ℝ × ℝ) × ℝ) :=
  [((800, 300), 0), ((800, 400), 0), ((50, 163), 3 * Real.pi / 2), ((800, 200), 0)]

/-- The target circle at `p` overlaps the obstacle circle of `o`
(the test of r2.py line 237). -/
noncomputable def overlapsTarget (p : ℝ × ℝ) (o : Obstacle) : Prop :=
  Real.sqrt ((p.1 - o.pos.1) ^ 2 + (p.2 - o.pos.2) ^ 2) < target_radius + o.radius

/-- One target bounce off obstacle `o` (r2.py lines 239-247): revert the
target to `old` and push it one target_speed step along the bearing from the
obstacle to the (pre-revert) position `p`. -/
noncomputable def bounceOf (old p : ℝ × ℝ) (o : Obstacle) : ℝ × ℝ :=
  (old.1 + Real.cos (atan2 (p.2 - o.pos.2) (p.1 - o.pos.1)) * target_speed,
   old.2 + Real.sin (atan2 (p.2 - o.pos.2) (p.1 - o.pos.1)) * target_speed)

/-- First obstacle of the C10 witness scenario. -/
def c10o1 : Obstacle := ⟨(150, 100), 50, 0, 1.5⟩

/-- Second obstacle of the C10 witness scenario. -/
def c10o2 : Obstacle := ⟨(80, 100), 40, 0, 1.2⟩

end NavigationEnv

/-! ## Lemmas about listMax -/

lemma le_foldl_max (xs : List ℝ) (a : ℝ) : a ≤ xs.foldl max a := by
  induction xs generalizing a with
  | nil => simp
  | cons x xs ih => exact le_trans (le_max_left a x) (ih (max a x))

lemma mem_le_foldl_max (xs : List ℝ) (a b : ℝ) (hb : b ∈ xs) : b ≤ xs.foldl max a := by
  induction xs generalizing a with
  | nil => simp at hb
  | cons x xs ih =>
    rcases List.mem_cons.1 hb with h | h
    · subst h
      exact le_trans (le_max_right a b) (le_foldl_max xs (max a b))
    · exact ih (max a x) h

lemma foldl_max_mem (xs : List ℝ) (a : ℝ) : xs.foldl max a = a ∨ xs.foldl max a ∈ xs := by
  induction xs generalizing a with
  | nil => simp
  | cons x xs ih =>
    rcases ih (max a x) with h | h
    · rcases max_cases a x with ⟨he, _⟩ | ⟨he, _⟩
      · exact Or.inl (by rw [List.foldl_cons, h, he])
      · exact Or.inr (by rw [List.foldl_cons, h, he]; exact List.mem_cons_self x xs)
    · exact Or.inr (List.mem_cons_of_mem x h)

lemma le_listMax {l : List ℝ} {a : ℝ} (h : a ∈ l) : a ≤ listMax l := by
  cases l with
  | nil => simp at h
  | cons x xs =>
    rcases List.mem_cons.1 h with h | h
    · subst h; exact le_foldl_max xs a
    · exact mem_le_foldl_max xs x a h

lemma listMax_mem {l : List ℝ} (h : l ≠ []) : listMax l ∈ l := by
  cases l with
  | nil => exact absurd rfl h
  | cons x xs =>
    rcases foldl_max_mem xs x with h1 | h1
    · exact List.mem_cons.2 (Or.inl h1)
    · exact List.mem_cons.2 (Or.inr h1)

lemma foldl_max_map_div (xs : List ℝ) (a c : ℝ) (hc : 0 ≤ c) :
    (xs.map (fun w => w / c)).foldl max (a / c) = xs.foldl max a / c := by
  induction xs generalizing a with
  | nil => simp
  | cons x xs ih =>
    simp only [List.map_cons, List.foldl_cons, max_div_div_right hc]
    exact ih (max a x)

lemma listMax_map_div (l : List ℝ) (c : ℝ) (hc : 0 ≤ c) :
    listMax (l.map (fun w => w / c)) = listMax l / c := by
  cases l with
  | nil => simp [listMax]
  | cons x xs => simpa [listMax] using foldl_max_map_div xs x c hc

/-! ## Buffer length and membership helpers -/

lemma dequeAppend_length (cap : ℕ) (l : List α) (x : α) :
    (dequeAppend cap l x).length = min cap (l.length + 1) := by
  simp only [dequeAppend, List.length_drop, List.length_append, List.length_cons,
    List.length_nil]
  omega

lemma mem_dequeAppend {cap : ℕ} {l : List α} {x a : α}
    (h : a ∈ dequeAppend cap l x) : a ∈ l ∨ a = x := by
  have h2 : a ∈ l ++ [x] := List.drop_subset _ _ h
  simpa using h2

/-- Length of the transition deque after a push, in closed form. -/
lemma ReplayBuffer.push_buffer_length (b : ReplayBuffer σ) (t : Transition σ) :
    (b.push t).buffer.length = min b.capacity (b.buffer.length + if t.done then 1 else 2) := by
  cases h : t.done <;> simp [ReplayBuffer.push, h, dequeAppend_length] <;> omega

/-- Length of the priority deque after a push, in closed form. -/
lemma ReplayBuffer.push_priorities_length (b : ReplayBuffer σ) (t : Transition σ) :
    (b.push t).priorities.length =
      min b.capacity (b.priorities.length + if t.done then 1 else 2) := by
  cases h : t.done <;> simp [ReplayBuffer.push, h, dequeAppend_length] <;> omega

lemma ReplayBuffer.push_capacity (b : ReplayBuffer σ) (t : Transition σ) :
    (b.push t).capacity = b.capacity := by
  cases h : t.done <;> simp [ReplayBuffer.push, h]

lemma pos_of_mem_dequeAppend {cap : ℕ} {l : List ℝ} {x a : ℝ}
    (hl : ∀ p ∈ l, 0 < p) (hx : 0 < x) (h : a ∈ dequeAppend cap l x) : 0 < a := by
  rcases mem_dequeAppend h with h2 | h2
  · exact hl a h2
  · exact h2 ▸ hx

lemma foldl_set_length (pairs : List (ℕ × ℝ)) (ps : List ℝ) (f : ℕ × ℝ → ℝ) :
    (pairs.foldl (fun ps p => ps.set p.1 (f p)) ps).length = ps.length := by
  induction pairs generalizing ps with
  | nil => rfl
  | cons p pairs ih => simp [List.foldl_cons, ih]

lemma foldl_set_pos (pairs : List (ℕ × ℝ)) (ps : List ℝ) (f : ℕ × ℝ → ℝ)
    (hps : ∀ q ∈ ps, 0 < q) (hf : ∀ p, 0 < f p) :
    ∀ q ∈ pairs.foldl (fun ps p => ps.set p.1 (f p)) ps, 0 < q := by
  induction pairs generalizing ps with
  | nil => exact hps
  | cons p pairs ih =>
    intro q hq
    refine ih (ps.set p.1 (f p)) ?_ q hq
    intro r hr
    rcases List.mem_or_eq_of_mem_set hr with h2 | h2
    · exact hps r h2
    · exact h2 ▸ hf p

/-! ## Claim C3: growth of the buffer under push -/

/-- C3 counterexample: pushing a non-terminal transition onto a full buffer
(20000 entries at the default capacity 20000) leaves the length at 20000; it
does not increase by 2 as claimed. -/
theorem push_growth_counterexample :
    ¬ ((fullBuffer.push dummyTrans).buffer.length = fullBuffer.buffer.length + 2) := by
  have h := ReplayBuffer.push_buffer_length fullBuffer dummyTrans
  have hlen : fullBuffer.buffer.length = 20000 := by
    rw [show fullBuffer.buffer = List.replicate 20000 dummyTrans from rfl,
      List.length_replicate]
  have hcap : fullBuffer.capacity = 20000 := rfl
  have hdone : dummyTrans.done = false := rfl
  rw [hlen, hcap, hdone] at h
  norm_num at h
  omega

/-- C3 (amended): a push grows the transition deque by 2 for a non-terminal
transition and by 1 for a terminal one only while the result stays within
capacity; in general the new length is min(capacity, old length + 2 or 1), so
a buffer already at capacity keeps its length. -/
theorem push_growth (b : ReplayBuffer σ) (t : Transition σ) :
    (b.push t).buffer.length =
      min b.capacity (b.buffer.length + if t.done then 1 else 2) :=
  ReplayBuffer.push_buffer_length b t

/-! ## Claim C7: the buffer invariant -/

lemma bufInv_push {b : ReplayBuffer σ} (h : bufInv b) (t : Transition σ) :
    bufInv (b.push t) := by
  obtain ⟨hlen, hcap, hpos⟩ := h
  have hmaxpos : (0 : ℝ) <
      (if b.priorities.isEmpty then 1.0 else listMax b.priorities) := by
    by_cases he : b.priorities.isEmpty
    · simp [he]; norm_num
    · simp only [he, if_false, ite_false]
      exact hpos _ (listMax_mem (by simpa [List.isEmpty_iff] using he))
  refine ⟨?_, ?_, ?_⟩
  · rw [ReplayBuffer.push_buffer_length, ReplayBuffer.push_priorities_length, hlen]
  · rw [ReplayBuffer.push_buffer_length, ReplayBuffer.push_capacity]; omega
  · intro p hp
    cases ht : t.done <;> simp only [ReplayBuffer.push, ht, if_true, if_false,
      ite_true, ite_false, Bool.false_eq_true] at hp
    · exact pos_of_mem_dequeAppend
        (fun q hq => pos_of_mem_dequeAppend hpos hmaxpos hq) hmaxpos hp
    · exact pos_of_mem_dequeAppend hpos hmaxpos hp

lemma bufInv_update {b : ReplayBuffer σ} (h : bufInv b)
    (indices : List ℕ) (td_errors : List ℝ) :
    bufInv (b.update_priorities indices td_errors) := by
  obtain ⟨hlen, hcap, hpos⟩ := h
  refine ⟨?_, hcap, ?_⟩
  · simpa [ReplayBuffer.update_priorities, foldl_set_length] using hlen
  · intro p hp
    refine foldl_set_pos _ _ _ hpos (fun q => ?_) p hp
    have : (0 : ℝ) < bufEpsilon := by norm_num [bufEpsilon]
    have h2 : (0 : ℝ) ≤ |q.2| := abs_nonneg _
    linarith

lemma bufInv_sample [Inhabited σ] {b : ReplayBuffer σ} (h : bufInv b)
    (indices : List ℕ) : bufInv (b.sample indices).post := by
  obtain ⟨hlen, hcap, hpos⟩ := h
  exact ⟨by simpa [ReplayBuffer.sample] using hlen,
    by simpa [ReplayBuffer.sample] using hcap,
    by simpa [ReplayBuffer.sample] using hpos⟩

/-- C7: every replay-buffer operation (push, sample, update_priorities)
preserves the invariant: all stored priorities are strictly positive, the
priority deque's length equals the transition deque's length, and both are
bounded by the capacity. -/
theorem buffer_invariant_preserved [Inhabited σ] (b : ReplayBuffer σ)
    (t : Transition σ) (sampleIdx : List ℕ) (updIdx : List ℕ) (tds : List ℝ)
    (h : bufInv b) :
    bufInv (b.push t) ∧
    bufInv (b.sample sampleIdx).post ∧
    bufInv (b.update_priorities updIdx tds) :=
  ⟨bufInv_push h t, bufInv_sample h sampleIdx, bufInv_update h updIdx tds⟩

/-- C7 witness: the invariant holds for a freshly constructed buffer and is
preserved by a push, a sample and a priority update on it. -/
theorem buffer_invariant_preserved_witness :
    bufInv (ReplayBuffer.new Unit 20000) ∧
    (bufInv ((ReplayBuffer.new Unit 20000).push dummyTrans) ∧
     bufInv ((ReplayBuffer.new Unit 20000).sample [0]).post ∧
     bufInv ((ReplayBuffer.new Unit 20000).update_priorities [0] [2.5])) := by
  have hinv : bufInv (ReplayBuffer.new Unit 20000) := by
    refine ⟨rfl, by simp [ReplayBuffer.new], ?_⟩
    intro p hp
    simp [ReplayBuffer.new] at hp
  exact ⟨hinv, buffer_invariant_preserved _ dummyTrans [0] [0] [2.5] hinv⟩

/-! ## Claim C6: importance-sampling weights -/

lemma ReplayBuffer.rawWeight_pos [Inhabited σ] (b : ReplayBuffer σ) (beta : ℝ) (i : ℕ)
    (hne : b.priorities ≠ []) (hpos : ∀ p ∈ b.priorities, 0 < p)
    (hi : i < b.priorities.length) (hlen : b.priorities.length = b.buffer.length) :
    0 < b.rawWeight beta i := by
  have hbuf : 0 < b.buffer.length := by
    rw [← hlen]
    exact List.length_pos.2 hne
  have hnum : 0 < (b.priorities.getD i 0) ^ bufAlpha := by
    rw [List.getD_eq_getElem _ _ hi]
    exact Real.rpow_pos_of_pos (hpos _ (List.getElem_mem _)) _
  have hden : 0 < ((b.priorities.map (fun p => p ^ bufAlpha)).sum) := by
    refine List.sum_pos _ (fun x hx => ?_) (by simpa using hne)
    obtain ⟨p, hp, rfl⟩ := List.mem_map.1 hx
    exact Real.rpow_pos_of_pos (hpos p hp) _
  have hprob : 0 < b.prob i := div_pos hnum hden
  exact Real.rpow_pos_of_pos (mul_pos (by exact_mod_cast hbuf) hprob) _

/-- C6: on a buffer with positive priorities, sampling first advances beta by
its fixed increment capped at 1.0, then each returned importance weight is the
raw weight (buffer length times sampling probability, to the power -beta)
divided by the batch maximum of those raw weights; hence every returned
weight is at most 1 and the batch maximum equals exactly 1. -/
theorem sample_importance_weights [Inhabited σ] (b : ReplayBuffer σ) (indices : List ℕ)
    (hne : b.priorities ≠ []) (hpos : ∀ p ∈ b.priorities, 0 < p)
    (hidx : indices ≠ []) (hlt : ∀ i ∈ indices, i < b.priorities.length)
    (hlen : b.priorities.length = b.buffer.length) :
    (b.sample indices).post.beta = min 1.0 (b.beta + bufBetaIncrement) ∧
    (b.sample indices).weights =
      (indices.map (fun i => b.rawWeight (min 1.0 (b.beta + bufBetaIncrement)) i)).map
        (fun w => w /
          listMax (indices.map (fun i => b.rawWeight (min 1.0 (b.beta + bufBetaIncrement)) i))) ∧
    (∀ w ∈ (b.sample indices).weights, w ≤ 1) ∧
    listMax (b.sample indices).weights = 1 := by
  have hraw_pos : ∀ w ∈ indices.map
      (fun i => b.rawWeight (min 1.0 (b.beta + bufBetaIncrement)) i), 0 < w := by
    intro w hw
    obtain ⟨i, hi, rfl⟩ := List.mem_map.1 hw
    exact b.rawWeight_pos _ i hne hpos (hlt i hi) hlen
  have hraw_ne : indices.map
      (fun i => b.rawWeight (min 1.0 (b.beta + bufBetaIncrement)) i) ≠ [] := by
    simpa using hidx
  have hmax_pos : 0 < listMax (indices.map
      (fun i => b.rawWeight (min 1.0 (b.beta + bufBetaIncrement)) i)) :=
    hraw_pos _ (listMax_mem hraw_ne)
  refine ⟨by simp [ReplayBuffer.sample], by simp [ReplayBuffer.sample], ?_, ?_⟩
  · intro w hw
    simp only [ReplayBuffer.sample] at hw
    obtain ⟨r, hr, rfl⟩ := List.mem_map.1 hw
    exact (div_le_one hmax_pos).2 (le_listMax hr)
  · simp only [ReplayBuffer.sample]
    rw [listMax_map_div _ _ hmax_pos.le]
    exact div_self hmax_pos.ne'

/-- C6 witness: concrete sample on a two-entry buffer with priorities 1, 1. -/
theorem sample_importance_weights_witness :
    (∀ w ∈ (witBuf.sample [0, 1]).weights, w ≤ 1) ∧
    listMax (witBuf.sample [0, 1]).weights = 1 := by
  have h := sample_importance_weights witBuf [0, 1]
    (by simp [witBuf])
    (by intro p hp; simp [witBuf] at hp; rw [hp]; norm_num)
    (by simp)
    (by intro i hi; simp [witBuf] at hi ⊢; omega)
    (by simp [witBuf])
  exact ⟨h.2.2.1, h.2.2.2⟩

/-! ## Claim C1: the training-step block -/

/-- C1 evidence: the training-step block (r2.py lines 442-467) never mutates
the online estimator's parameters and never touches the stored priorities or
transitions: it computes the target values and stops, with no loss, no
optimizer step and no update_priorities call. Only the sampling side effect
(the beta increment inside sample) reaches the training state. -/
theorem training_update_discards_td [Inhabited σ] (net : θ → σ → ℕ → ℝ)
    (ts : TrainState σ θ) (sampleIdx : List ℕ) :
    (trainingUpdate net ts sampleIdx).1.onlineParams = ts.onlineParams ∧
    (trainingUpdate net ts sampleIdx).1.targetParams = ts.targetParams ∧
    (trainingUpdate net ts sampleIdx).1.buffer.priorities = ts.buffer.priorities ∧
    (trainingUpdate net ts sampleIdx).1.buffer.buffer = ts.buffer.buffer := by
  by_cases h : batch_size ≤ ts.buffer.buffer.length <;>
    simp [trainingUpdate, h, ReplayBuffer.sample]

/-! ## Claim C9: the dueling decomposition is not zero-mean-centered across actions -/

/-- C9: the dueling combination does not zero-mean-center the advantage
across actions, because the activations reach the heads as [1, batch, A]
tensors and `advantage.mean(dim=1, keepdim=True)` therefore averages across
the batch per action. At the concrete two-sample batch whose advantage is 1
on every action for the first sample and 0 for the second (value identically
0), the first sample's mean over the 8 actions of (Q minus the value term)
is 1/2, not the claimed 0. And on a batch of one — the action-selection path
— the subtraction cancels the advantage entirely: all 8 action values
collapse to the value term 5 even though the advantage row (0, 1, ..., 7) is
far from constant. -/
theorem dueling_mean_over_batch_axis :
    ((∑ a, (qValuesCombine 2 8 (fun _ => 0) (fun b _ => if b = 0 then 1 else 0) 0 a -
        (0 : ℝ))) / (8 : ℝ) = 1 / 2 ∧ (1 / 2 : ℝ) ≠ 0) ∧
    (∀ a : Fin 8, qValuesCombine 1 8 (fun _ => 5) (fun _ a => ((a : ℕ) : ℝ)) 0 a = 5) := by
  refine ⟨⟨?_, by norm_num⟩, ?_⟩
  · simp only [qValuesCombine, Fin.sum_univ_succ, Fin.sum_univ_zero]
    norm_num
  · intro a
    simp only [qValuesCombine, Fin.sum_univ_one]
    norm_num

/-! ## Claim C8: diagonal actions -/

open NavigationEnv in
/-- C8 counterexample: for the diagonal action 4 the per-step displacement
magnitude is not the agent speed: the components are scaled by 0.707, a
truncation of 1 / sqrt 2, so the magnitude is 4 * 0.707 * sqrt 2, whose
square is 15.995168, not 16. -/
theorem diagonal_speed_counterexample :
    Real.sqrt ((agentDelta 4).1 ^ 2 + (agentDelta 4).2 ^ 2) ≠ speed := by
  have hd : agentDelta 4 = (-4 * 0.707, -4 * 0.707) := by
    simp only [agentDelta]
    norm_num [speed]
  rw [hd]
  intro h
  have hnn : (0 : ℝ) ≤ ((-4 * 0.707 : ℝ)) ^ 2 + ((-4 * 0.707 : ℝ)) ^ 2 := by positivity
  have h2 := congrArg (fun x => x ^ 2) h
  simp only [Real.sq_sqrt hnn] at h2
  rw [speed] at h2
  norm_num at h2

open NavigationEnv in
/-- C8 (amended): each diagonal action scales both displacement components by
0.707 (the source's decimal truncation of 1 / sqrt 2), so every diagonal
per-step displacement has component magnitudes 0.707 * speed and total
magnitude 0.707 * sqrt 2 * speed, about 0.99985 * speed: close to, but not
exactly, the cardinal per-step displacement. -/
theorem diagonal_scaled_by_0707 (a : ℕ) (h : a = 4 ∨ a = 5 ∨ a = 6 ∨ a = 7) :
    |(agentDelta a).1| = 0.707 * speed ∧
    |(agentDelta a).2| = 0.707 * speed ∧
    Real.sqrt ((agentDelta a).1 ^ 2 + (agentDelta a).2 ^ 2) =
      0.707 * Real.sqrt 2 * speed := by
  have key : ∀ x y : ℝ, x = 4 * 0.707 ∨ x = -4 * 0.707 → y = 4 * 0.707 ∨ y = -4 * 0.707 →
      Real.sqrt (x ^ 2 + y ^ 2) = 0.707 * Real.sqrt 2 * speed := by
    intro x y hx hy
    have hx2 : x ^ 2 = (4 * 0.707) ^ 2 := by rcases hx with h | h <;> rw [h] <;> ring
    have hy2 : y ^ 2 = (4 * 0.707) ^ 2 := by rcases hy with h | h <;> rw [h] <;> ring
    rw [hx2, hy2, show ((4 * 0.707 : ℝ)) ^ 2 + (4 * 0.707) ^ 2 = (4 * 0.707) ^ 2 * 2 by ring,
      Real.sqrt_mul (by positivity), Real.sqrt_sq (by norm_num), speed]
    ring
  rcases h with h | h | h | h <;> subst h <;>
    refine ⟨?_, ?_, key _ _ ?_ ?_⟩ <;>
    simp only [agentDelta] <;> norm_num [speed, abs_of_nonneg, abs_of_nonpos]

/-- C8 witness: the amended statement at the concrete diagonal action 4. -/
theorem diagonal_scaled_by_0707_witness :
    ((4 : ℕ) = 4 ∨ (4 : ℕ) = 5 ∨ (4 : ℕ) = 6 ∨ (4 : ℕ) = 7) ∧
    (|(NavigationEnv.agentDelta 4).1| = 0.707 * NavigationEnv.speed ∧
     |(NavigationEnv.agentDelta 4).2| = 0.707 * NavigationEnv.speed ∧
     Real.sqrt ((NavigationEnv.agentDelta 4).1 ^ 2 + (NavigationEnv.agentDelta 4).2 ^ 2) =
       0.707 * Real.sqrt 2 * NavigationEnv.speed) :=
  ⟨Or.inl rfl, diagonal_scaled_by_0707 4 (Or.inl rfl)⟩

/-! ## Claim C4: the reset placement loop -/

open NavigationEnv in
lemma placeAgentLoop_some_imp (obs : List Obstacle) :
    ∀ (fuel : ℕ) (draws : ℕ → ℝ × ℝ) (p : ℝ × ℝ),
      placeAgentLoop obs draws fuel = some p →
      ∃ n, checkCollision (draws n) obs = none := by
  intro fuel
  induction fuel with
  | zero => intro draws p h; simp [placeAgentLoop] at h
  | succ n ih =>
    intro draws p h
    rw [placeAgentLoop] at h
    by_cases hc : (checkCollision (draws 0) obs).isSome
    · rw [if_pos hc] at h
      obtain ⟨k, hk⟩ := ih _ _ h
      exact ⟨k + 1, hk⟩
    · exact ⟨0, Option.not_isSome_iff_eq_none.1 hc⟩

open NavigationEnv in
lemma placeAgentLoop_halts (obs : List Obstacle) :
    ∀ (n : ℕ) (draws : ℕ → ℝ × ℝ),
      checkCollision (draws n) obs = none →
      ∃ fuel p, placeAgentLoop obs draws fuel = some p := by
  intro n
  induction n with
  | zero =>
    intro draws h
    refine ⟨1, draws 0, ?_⟩
    rw [placeAgentLoop, if_neg (by simp [h])]
  | succ k ih =>
    intro draws h
    by_cases hc : (checkCollision (draws 0) obs).isSome
    · obtain ⟨fuel, p, hp⟩ := ih (fun j => draws (j + 1)) h
      exact ⟨fuel + 1, p, by rw [placeAgentLoop, if_pos hc]; exact hp⟩
    · exact ⟨1, draws 0, by rw [placeAgentLoop, if_neg hc]⟩

open NavigationEnv in
/-- C4 (amended): the agent placement in reset is an uncapped `while True`
rejection loop with no failure path; it exits (at some finite attempt count)
if and only if some draw of the stream is collision-free. In particular no
fixed retry bound exists and an all-colliding draw stream loops forever. -/
theorem reset_placement_halts_iff (obs : List Obstacle) (draws : ℕ → ℝ × ℝ) :
    (∃ fuel p, placeAgentLoop obs draws fuel = some p) ↔
    (∃ n, checkCollision (draws n) obs = none) := by
  constructor
  · rintro ⟨fuel, p, h⟩
    exact placeAgentLoop_some_imp obs fuel draws p h
  · rintro ⟨n, h⟩
    exact placeAgentLoop_halts obs n draws h

open NavigationEnv in
lemma placeAgentLoop_const_collide :
    ∀ fuel : ℕ, placeAgentLoop (envInit 0 0 0 0 0).obstacles
      (fun _ => ((300 : ℝ), (400 : ℝ))) fuel = none := by
  have hcheck : checkCollision ((300 : ℝ), (400 : ℝ)) (envInit 0 0 0 0 0).obstacles =
      some ⟨(300, 400), 50, 0, 1.5⟩ := by
    rw [envInit]
    rw [checkCollision]
    rw [if_pos]
    norm_num [agent_radius]
  intro fuel
  induction fuel with
  | zero => rfl
  | succ n ih =>
    rw [placeAgentLoop]
    simp only [hcheck, Option.isSome_some, if_true]
    exact ih

open NavigationEnv in
/-- C4 counterexample: on the draw stream that always lands at (300, 400), the
center of the first obstacle of the constructed environment, the reset
placement loop never exits: it is not bounded by any retry cap and loops
indefinitely, with no configuration error. -/
theorem reset_placement_counterexample :
    ¬ ∃ fuel p, placeAgentLoop (envInit 0 0 0 0 0).obstacles
      (fun _ => ((300 : ℝ), (400 : ℝ))) fuel = some p := by
  rintro ⟨fuel, p, h⟩
  rw [placeAgentLoop_const_collide fuel] at h
  exact Option.noConfusion h

/-! ## atan2 lemmas -/

lemma complex_mk_eq_ofReal (x : ℝ) : (⟨x, 0⟩ : ℂ) = (x : ℂ) := by
  apply Complex.ext <;> simp

lemma atan2_zero_neg {x : ℝ} (hx : x < 0) : NavigationEnv.atan2 0 x = Real.pi := by
  unfold NavigationEnv.atan2
  rw [complex_mk_eq_ofReal]
  exact Complex.arg_ofReal_of_neg hx

lemma atan2_zero_nonneg {x : ℝ} (hx : 0 ≤ x) : NavigationEnv.atan2 0 x = 0 := by
  unfold NavigationEnv.atan2
  rw [complex_mk_eq_ofReal]
  exact Complex.arg_ofReal_of_nonneg hx

lemma cos_atan2_neg_of_neg {y x : ℝ} (hx : x < 0) :
    Real.cos (NavigationEnv.atan2 y x) < 0 := by
  unfold NavigationEnv.atan2
  have hz : (⟨x, y⟩ : ℂ) ≠ 0 := by
    intro h
    have : (⟨x, y⟩ : ℂ).re = (0 : ℂ).re := by rw [h]
    simp at this
    exact hx.ne this
  rw [Complex.cos_arg hz]
  have habs : 0 < Complex.abs ⟨x, y⟩ := Complex.abs.pos hz
  have hre : (⟨x, y⟩ : ℂ).re = x := rfl
  rw [hre]
  exact div_neg_of_neg_of_pos hx habs

/-! ## Claim C5: reaching the target overrides the reward -/

open NavigationEnv in
/-- C5: whenever the post-move agent-to-target distance (measured after the
agent's move and clamp, before any obstacle bounce) is below the sum of the
agent and target radii, the step reports done and reward exactly 200,
regardless of the bounce or shaping reward computed earlier in the step. -/
theorem reach_target_overrides (s : NavState) (a : ℕ)
    (h : agentDistAfterMove s a < agent_radius + target_radius) :
    (step s a).isDone ∧ (step s a).reward = 200 := by
  constructor
  · simpa only [step] using h
  · simp only [step]
    rw [if_pos h]

open NavigationEnv in
/-- C5 witness: with the agent at (500, 300), the target at (510, 300) and
all obstacles far away, the action 1 (right) ends the episode with reward
200. -/
theorem reach_target_overrides_witness :
    agentDistAfterMove c5State 1 < agent_radius + target_radius ∧
    ((step c5State 1).isDone ∧ (step c5State 1).reward = 200) := by
  have h : agentDistAfterMove c5State 1 < agent_radius + target_radius := by
    norm_num [agentDistAfterMove, agentMovedPos, agentDelta, stepTargetPhase,
      targetWallAngle, targetObstacleLoop, moveObstacle, c5State, width, height,
      speed, target_speed, target_radius, agent_radius, Real.cos_zero, Real.sin_zero,
      Real.sqrt_lt', List.foldl_cons, List.foldl_nil, min_def, max_def]
  exact ⟨h, reach_target_overrides c5State 1 h⟩

/-! ## Claim C10: aliasing in the target-obstacle bounce loop -/

open NavigationEnv in
/-- C10: if the moved target (at `Pm`, pre-move position `P0`) overlaps `o1`
and the bounced position again overlaps `o2`, the loop's second iteration
reverts to the position produced by the first bounce, not to `P0`: after the
first bounce, the saved pre-move position is the live position (the same
mutable list object in the source), so the final position is the first-bounce
position pushed along the second bounce bearing, which differs from what
reverting to the true pre-move position would give. -/
theorem target_double_bounce_alias (P0 Pm : ℝ × ℝ) (ang : ℝ) (o1 o2 : Obstacle)
    (h1 : overlapsTarget Pm o1)
    (h2 : overlapsTarget (bounceOf P0 Pm o1) o2) :
    targetObstacleLoop [o1, o2] (Pm, P0, ang) =
      (bounceOf (bounceOf P0 Pm o1) (bounceOf P0 Pm o1) o2,
       bounceOf (bounceOf P0 Pm o1) (bounceOf P0 Pm o1) o2,
       atan2 ((bounceOf P0 Pm o1).2 - o2.pos.2) ((bounceOf P0 Pm o1).1 - o2.pos.1)) ∧
    bounceOf (bounceOf P0 Pm o1) (bounceOf P0 Pm o1) o2 ≠
      bounceOf P0 (bounceOf P0 Pm o1) o2 := by
  unfold overlapsTarget at h1 h2
  constructor
  · unfold targetObstacleLoop
    simp only [List.foldl_cons, List.foldl_nil]
    rw [if_pos h1]
    dsimp only
    rw [if_pos (by exact h2)]
    simp only [bounceOf]
  · intro heq
    have h1eq : (bounceOf P0 Pm o1).1 = P0.1 := by
      have := congrArg Prod.fst heq
      simpa [bounceOf] using this
    have h2eq : (bounceOf P0 Pm o1).2 = P0.2 := by
      have := congrArg Prod.snd heq
      simpa [bounceOf] using this
    set th := atan2 (Pm.2 - o1.pos.2) (Pm.1 - o1.pos.1) with hth
    have hcos : Real.cos th * target_speed = 0 := by
      have : P0.1 + Real.cos th * target_speed = P0.1 := by
        simpa [bounceOf, hth] using h1eq
      linarith
    have hsin : Real.sin th * target_speed = 0 := by
      have : P0.2 + Real.sin th * target_speed = P0.2 := by
        simpa [bounceOf, hth] using h2eq
      linarith
    have hts : (target_speed : ℝ) ≠ 0 := by norm_num [target_speed]
    have hcos2 : Real.cos th = 0 := by
      rcases mul_eq_zero.1 hcos with h | h
      · exact h
      · exact absurd h hts
    have hsin2 : Real.sin th = 0 := by
      rcases mul_eq_zero.1 hsin with h | h
      · exact h
      · exact absurd h hts
    have := Real.sin_sq_add_cos_sq th
    rw [hsin2, hcos2] at this
    norm_num at this

open NavigationEnv in
/-- C10 witness: the target at (102, 100) (moved from (100, 100)) overlaps
the obstacle at (150, 100), bounces to (98, 100), which overlaps the obstacle
at (80, 100); the second revert restores (98, 100), not (100, 100). -/
theorem target_double_bounce_alias_witness :
    overlapsTarget (102, 100) c10o1 ∧
    overlapsTarget (bounceOf (100, 100) (102, 100) c10o1) c10o2 ∧
    (targetObstacleLoop [c10o1, c10o2] ((102, 100), (100, 100), 0) =
      (bounceOf (bounceOf (100, 100) (102, 100) c10o1)
         (bounceOf (100, 100) (102, 100) c10o1) c10o2,
       bounceOf (bounceOf (100, 100) (102, 100) c10o1)
         (bounceOf (100, 100) (102, 100) c10o1) c10o2,
       atan2 ((bounceOf (100, 100) (102, 100) c10o1).2 - c10o2.pos.2)
         ((bounceOf (100, 100) (102, 100) c10o1).1 - c10o2.pos.1)) ∧
     bounceOf (bounceOf (100, 100) (102, 100) c10o1)
         (bounceOf (100, 100) (102, 100) c10o1) c10o2 ≠
       bounceOf (100, 100) (bounceOf (100, 100) (102, 100) c10o1) c10o2) := by
  have hb1 : bounceOf (100, 100) (102, 100) c10o1 = (98, 100) := by
    unfold bounceOf c10o1
    norm_num
    rw [atan2_zero_neg (by norm_num : (-48 : ℝ) < 0), Real.cos_pi, Real.sin_pi]
    norm_num [target_speed]
  have h1 : overlapsTarget (102, 100) c10o1 := by
    norm_num [overlapsTarget, c10o1, target_radius, Real.sqrt_lt']
  have h2 : overlapsTarget (bounceOf (100, 100) (102, 100) c10o1) c10o2 := by
    rw [hb1]
    norm_num [overlapsTarget, c10o2, target_radius, Real.sqrt_lt']
  exact ⟨h1, h2, target_double_bounce_alias (100, 100) (102, 100) 0 c10o1 c10o2 h1 h2⟩

/-! ## Claim C2: agent bounds -/

lemma cos_3pi2 : Real.cos (3 * Real.pi / 2) = 0 := by
  have h : (3 : ℝ) * Real.pi / 2 = Real.pi + Real.pi / 2 := by ring
  rw [h, Real.cos_add, Real.cos_pi, Real.sin_pi, Real.cos_pi_div_two, Real.sin_pi_div_two]
  ring

lemma sin_3pi2 : Real.sin (3 * Real.pi / 2) = -1 := by
  have h : (3 : ℝ) * Real.pi / 2 = Real.pi + Real.pi / 2 := by ring
  rw [h, Real.sin_add, Real.cos_pi, Real.sin_pi, Real.cos_pi_div_two, Real.sin_pi_div_two]
  ring

set_option maxHeartbeats 2000000 in
open NavigationEnv in
/-- Evaluation of the 19 quiet steps of the refuting trajectory: pressing
left, the agent walks from (50, 100) to the left wall and stays pinned there
while obstacle 3 descends toward it; no collision or wall event fires. -/
lemma trace_step (n : ℕ) (hn : n < 19) :
    (step (traceState n) 3).state = traceState (n + 1) := by
  interval_cases n <;>
    norm_num [traceState, step, stepTargetPhase, targetWallAngle, targetObstacleLoop,
      moveObstacle, agentMovedPos, agentDelta, agentDistAfterMove, checkCollision, width,
      height, speed, target_speed, target_radius, agent_radius, Real.cos_zero, Real.sin_zero,
      Real.sqrt_lt', -Real.sqrt_div, -Real.sqrt_div', List.foldl_cons, List.foldl_nil,
      min_def, max_def, cos_3pi2, sin_3pi2]

open NavigationEnv in
/-- The 20th step: the descending obstacle overlaps the pinned agent, the
bounce reverts the agent to the wall position (0, 100) and pushes it one
speed-step along the obstacle-to-agent bearing, which points out of the
world: the resulting x coordinate is negative (there is no clamp after the
bounce, r2.py lines 311-313). -/
lemma trace_final_bounce : (step (traceState 19) 3).state.agentPos.1 < 0 := by
  have hmv : agentMovedPos (traceState 19) 3 = (0, 100) := by
    norm_num [traceState, agentMovedPos, agentDelta, speed, width, height, min_def, max_def]
  have hobs : (stepTargetPhase (traceState 19)).obstacles =
      [⟨(830, 300), 50, 0, 1.5⟩, ⟨(824, 400), 40, 0, 1.2⟩,
       ⟨(50, 127), 45, 3 * Real.pi / 2, 1.8⟩, ⟨(826, 200), 35, 0, 1.3⟩] := by
    norm_num [traceState, stepTargetPhase, targetWallAngle, targetObstacleLoop,
      moveObstacle, width, height, target_speed, target_radius, Real.cos_zero,
      Real.sin_zero, Real.sqrt_lt', -Real.sqrt_div, -Real.sqrt_div', List.foldl_cons,
      List.foldl_nil, min_def, max_def, cos_3pi2, sin_3pi2]
  have hc : checkCollision ((0 : ℝ), (100 : ℝ))
      [⟨(830, 300), 50, 0, 1.5⟩, ⟨(824, 400), 40, 0, 1.2⟩,
       ⟨(50, 127), 45, 3 * Real.pi / 2, 1.8⟩, ⟨(826, 200), 35, 0, 1.3⟩] =
      some ⟨(50, 127), 45, 3 * Real.pi / 2, 1.8⟩ := by
    norm_num [checkCollision, agent_radius, Real.sqrt_lt', -Real.sqrt_div, -Real.sqrt_div']
  simp only [step, hmv, hobs, hc]
  have hcos := cos_atan2_neg_of_neg (y := (-27 : ℝ)) (show (-50 : ℝ) < 0 by norm_num)
  have hA : (traceState 19).agentPos.1 = 0 := by
    norm_num [traceState, max_def]
  rw [hA]
  norm_num [speed]
  nlinarith [hcos]

open NavigationEnv in
/-- The refuting reset: the first agent draw (50, 100) is accepted against the
constructed environment's obstacles, and the redrawn target, headings and
obstacle positions produce exactly the start of the refuting trajectory. -/
lemma reset_c2 :
    reset (envInit 0 0 0 0 0) c2AgentDraws 1 (500, 600) 0 c2ObsDraws =
      some (traceState 0) := by
  have hchk : checkCollision ((50 : ℝ), (100 : ℝ)) (envInit 0 0 0 0 0).obstacles = none := by
    norm_num [checkCollision, envInit, agent_radius, Real.sqrt_lt',
      -Real.sqrt_div, -Real.sqrt_div']
  have hplace : placeAgentLoop (envInit 0 0 0 0 0).obstacles c2AgentDraws 1 =
      some (50, 100) := by
    rw [placeAgentLoop]
    rw [if_neg (by rw [show c2AgentDraws 0 = ((50 : ℝ), (100 : ℝ)) from rfl, hchk]; simp)]
    rfl
  rw [reset, hplace]
  norm_num [traceState, envInit, c2ObsDraws, List.zip, List.zipWith, max_def]

open NavigationEnv in
/-- C2 counterexample: from a reachable reset state (all random draws inside
the source's draw ranges), twenty consecutive presses of action 3 (left) end
with the agent at a negative x coordinate: on the 20th step an obstacle
bounce displaces the pinned agent beyond the left wall, because the bounce
displacement is never clamped. -/
theorem agent_bounds_counterexample :
    reset (envInit 0 0 0 0 0) c2AgentDraws 1 (500, 600) 0 c2ObsDraws =
      some (traceState 0) ∧
    ¬ agentInBounds (stepIter (traceState 0) 3 20) := by
  refine ⟨reset_c2, ?_⟩
  have htr : ∀ n, n ≤ 19 → stepIter (traceState 0) 3 n = traceState n := by
    intro n hn
    induction n with
    | zero => rfl
    | succ k ih =>
      rw [stepIter, ih (by omega), trace_step k (by omega)]
  have h20 : stepIter (traceState 0) 3 20 = (step (traceState 19) 3).state := by
    show stepIter (traceState 0) 3 (19 + 1) = _
    rw [stepIter, htr 19 (by omega)]
  rw [h20]
  intro hb
  have hx := hb.1
  have hneg := trace_final_bounce
  linarith

open NavigationEnv in
/-- C2 (amended): from any in-bounds state, a step without an obstacle
collision leaves the agent inside [0, width] x [0, height] (the agent is only
clamped at walls, never reflected); a collision-bounce step is only
guaranteed to land within [-speed, width + speed] x [-speed, height + speed],
because the bounce displacement of up to one speed-step is applied to the
pre-move position with no clamp afterwards. -/
theorem agent_bounds_after_step (s : NavState) (a : ℕ) (h : agentInBounds s) :
    (-speed ≤ (step s a).state.agentPos.1 ∧ (step s a).state.agentPos.1 ≤ width + speed ∧
     -speed ≤ (step s a).state.agentPos.2 ∧ (step s a).state.agentPos.2 ≤ height + speed) ∧
    (checkCollision (agentMovedPos s a) (stepTargetPhase s).obstacles = none →
      agentInBounds (step s a).state) := by
  obtain ⟨hx0, hxw, hy0, hyh⟩ := h
  have hs : speed = 4 := rfl
  have hw : width = 1024 := rfl
  have hh : height = 768 := rfl
  cases hc : checkCollision (agentMovedPos s a) (stepTargetPhase s).obstacles with
  | none =>
    have hpos : (step s a).state.agentPos = agentMovedPos s a := by
      simp only [step, hc]
    have hin : agentInBounds (step s a).state := by
      refine ⟨?_, ?_, ?_, ?_⟩ <;> rw [hpos] <;> unfold agentMovedPos <;> dsimp only
      · exact le_max_left 0 _
      · exact max_le (by rw [hw]; norm_num) (min_le_left _ _)
      · exact le_max_left 0 _
      · exact max_le (by rw [hh]; norm_num) (min_le_left _ _)
    have h1 := hin.1
    have h2 := hin.2.1
    have h3 := hin.2.2.1
    have h4 := hin.2.2.2
    exact ⟨⟨by rw [hs] at *; linarith, by rw [hs, hw] at *; linarith,
      by rw [hs] at *; linarith, by rw [hs, hh] at *; linarith⟩, fun _ => hin⟩
  | some o =>
    have hpos : (step s a).state.agentPos =
        (s.agentPos.1 + Real.cos (atan2 ((agentMovedPos s a).2 - o.pos.2)
            ((agentMovedPos s a).1 - o.pos.1)) * speed,
         s.agentPos.2 + Real.sin (atan2 ((agentMovedPos s a).2 - o.pos.2)
            ((agentMovedPos s a).1 - o.pos.1)) * speed) := by
      simp only [step, hc]
    have hcos1 := Real.neg_one_le_cos (atan2 ((agentMovedPos s a).2 - o.pos.2)
      ((agentMovedPos s a).1 - o.pos.1))
    have hcos2 := Real.cos_le_one (atan2 ((agentMovedPos s a).2 - o.pos.2)
      ((agentMovedPos s a).1 - o.pos.1))
    have hsin1 := Real.neg_one_le_sin (atan2 ((agentMovedPos s a).2 - o.pos.2)
      ((agentMovedPos s a).1 - o.pos.1))
    have hsin2 := Real.sin_le_one (atan2 ((agentMovedPos s a).2 - o.pos.2)
      ((agentMovedPos s a).1 - o.pos.1))
    refine ⟨?_, fun hnone => ?_⟩
    · rw [hpos]
      dsimp only
      rw [hs] at *
      rw [hw, hh]
      refine ⟨by nlinarith, by nlinarith, by nlinarith, by nlinarith⟩
    · simp only [hc] at hnone
      simp at hnone

open NavigationEnv in
/-- C2 amended-claim witness: one concrete collision-free step from an
in-bounds state. -/
theorem agent_bounds_after_step_witness :
    agentInBounds c5State ∧
    ((-speed ≤ (step c5State 0).state.agentPos.1 ∧
      (step c5State 0).state.agentPos.1 ≤ width + speed ∧
      -speed ≤ (step c5State 0).state.agentPos.2 ∧
      (step c5State 0).state.agentPos.2 ≤ height + speed) ∧
     (checkCollision (agentMovedPos c5State 0) (stepTargetPhase c5State).obstacles = none →
       agentInBounds (step c5State 0).state)) := by
  have h : agentInBounds c5State := by
    norm_num [agentInBounds, c5State, width, height]
  exact ⟨h, agent_bounds_after_step c5State 0 h⟩
